import Mathlib

/-!
Verification of the Emissions Computation & Aggregation Engine of the
Carbonly backend (`backend/app/services/emissions.py`).

The Python service is shallowly embedded: SQLAlchemy rows become Lean
structures, `Decimal` values become exact rationals (`ℚ`), `date` becomes a
year/month/day triple with lexicographic order, and each service function
becomes a pure Lean function over explicit table states (lists of rows).
`Decimal.quantize` with the default `ROUND_HALF_EVEN` context is embedded as
an explicit half-even rounding on `ℚ`.
-/

namespace Carbonly

/-- Embedding of `datetime.date`: a calendar date compared lexicographically
by (year, month, day), as Python compares dates. -/
structure Date where
  year : Nat
  month : Nat
  day : Nat
deriving DecidableEq, Repr

/-- `a <= b` on dates, lexicographic on (year, month, day). -/
def dateLe (a b : Date) : Bool :=
  a.year < b.year ||
    (a.year == b.year &&
      (a.month < b.month || (a.month == b.month && a.day <= b.day)))

/-- `a < b` on dates, lexicographic on (year, month, day). -/
def dateLt (a b : Date) : Bool :=
  a.year < b.year ||
    (a.year == b.year &&
      (a.month < b.month || (a.month == b.month && a.day < b.day)))

/-- Row of the `emission_factors` reference table (`models/emission_factor.py`),
restricted to the columns the engine reads. -/
structure EmissionFactor where
  id : Nat
  activity_type : String
  factor_value : ℚ
  unit : String
  scope : Int
  scope_3_category : Option String
  valid_from : Option Date
  valid_to : Option Date
deriving DecidableEq, Repr

/-- Row of the `activity_records` table (`models/activity_record.py`),
restricted to the columns the engine reads. -/
structure ActivityRecord where
  id : Nat
  company_id : Nat
  scope : Int
  scope_3_category : Option String
  activity_type : String
  quantity : ℚ
  unit : String
  period_start : Date
  period_end : Date
  data_quality : String
  assumptions : Option String
  confidence_score : Option ℚ
deriving DecidableEq, Repr

/-- Row of the `emission_estimates` table (`models/emission_estimate.py`),
exactly the fields set by `compute_estimate_for_activity`. -/
structure EmissionEstimate where
  company_id : Nat
  activity_record_id : Nat
  emission_factor_id : Nat
  scope : Int
  scope_3_category : Option String
  activity_quantity : ℚ
  factor_value : ℚ
  emissions_kg_co2e : ℚ
  data_quality : String
  assumptions : Option String
  confidence_score : Option ℚ
  period_start : Date
  period_end : Date
deriving DecidableEq, Repr

/-- Row of the `emissions_summaries` table (`models/emissions_summary.py`),
exactly the fields set by `refresh_emissions_summaries`. -/
structure EmissionsSummary where
  company_id : Nat
  reporting_year : Nat
  period_type : String
  period_value : String
  scope : Int
  scope_3_category : Option String
  total_kg_co2e : ℚ
  measured_kg_co2e : ℚ
  estimated_kg_co2e : ℚ
  manual_kg_co2e : ℚ
  confidence_score_avg : Option ℚ
deriving DecidableEq, Repr

def DATA_QUALITY_MEASURED : String := "measured"
def DATA_QUALITY_ESTIMATED : String := "estimated"
def DATA_QUALITY_MANUAL : String := "manual"

/-- Round a rational to the nearest integer, ties to even: the
`ROUND_HALF_EVEN` mode of Python `decimal` (the default context rounding used
by `Decimal.quantize` in the service). -/
def roundHalfEvenInt (x : ℚ) : ℤ :=
  if x - ⌊x⌋ < 1/2 then ⌊x⌋
  else if 1/2 < x - ⌊x⌋ then ⌊x⌋ + 1
  else if ⌊x⌋ % 2 = 0 then ⌊x⌋ else ⌊x⌋ + 1

/-- `value.quantize(Decimal("0.000001"))`: half-even rounding to 6 decimal
places. -/
def quantize6 (x : ℚ) : ℚ := (roundHalfEvenInt (x * 1000000) : ℚ) / 1000000

/-- `value.quantize(Decimal("0.01"))`: half-even rounding to 2 decimal
places. -/
def quantize2 (x : ℚ) : ℚ := (roundHalfEvenInt (x * 100) : ℚ) / 100

/-- The temporal-validity conjuncts of `get_matching_factor` (emissions.py
lines 53-54): `(valid_from IS NULL OR valid_from <= period_end) AND
(valid_to IS NULL OR valid_to >= period_start)`. -/
def temporalOk (f : EmissionFactor) (period_start period_end : Date) : Bool :=
  (match f.valid_from with
   | none => true
   | some d => dateLe d period_end) &&
  (match f.valid_to with
   | none => true
   | some d => dateLe period_start d)

/-- The category conjunct of `get_matching_factor` (emissions.py lines 56-62):
for scope 3 the factor's category must equal the activity's category exactly
(a missing category only matches a missing one); for other scopes the
factor's category must be NULL. -/
def categoryOk (f : EmissionFactor) (scope : Int) (scope_3_category : Option String) : Bool :=
  if scope == 3 then
    match scope_3_category with
    | some c => f.scope_3_category == some c
    | none => f.scope_3_category == none
  else f.scope_3_category == none

/-- The full WHERE clause of `get_matching_factor`. -/
def factorMatches (f : EmissionFactor) (activity_type unit : String) (scope : Int)
    (scope_3_category : Option String) (period_start period_end : Date) : Bool :=
  f.activity_type == activity_type &&
  f.unit == unit &&
  f.scope == scope &&
  temporalOk f period_start period_end &&
  categoryOk f scope scope_3_category

/-- Strict order on optional dates as produced by `DESC NULLS LAST`:
`a` sorts strictly after `b` in the output (i.e. `a` is strictly worse)
iff `optDateLt a b`. NULL is below every date. -/
def optDateLt (a b : Option Date) : Bool :=
  match a, b with
  | none, some _ => true
  | none, none => false
  | some _, none => false
  | some x, some y => dateLt x y

/-- `a` sorts strictly before `b` under
`ORDER BY valid_to DESC NULLS LAST, valid_from DESC NULLS LAST`
(emissions.py lines 67-70). -/
def orderKeyLt (a b : EmissionFactor) : Bool :=
  optDateLt b.valid_to a.valid_to ||
    (a.valid_to == b.valid_to && optDateLt b.valid_from a.valid_from)

/-- Pick the first row of the ordered result set: the first listed candidate
with no strictly better candidate (a stable maximum). -/
def pickFirstOrdered : List EmissionFactor → Option EmissionFactor
  | [] => none
  | f :: l =>
    match pickFirstOrdered l with
    | none => some f
    | some g => if orderKeyLt g f then some g else some f

/-- `get_matching_factor` (emissions.py lines 36-74): filter the factor table
by the WHERE clause, order by `valid_to DESC NULLS LAST, valid_from DESC
NULLS LAST`, return the first row or `None`. -/
def get_matching_factor (factors : List EmissionFactor) (activity_type unit : String)
    (scope : Int) (scope_3_category : Option String)
    (period_start period_end : Date) : Option EmissionFactor :=
  pickFirstOrdered
    (factors.filter (fun f =>
      factorMatches f activity_type unit scope scope_3_category period_start period_end))

/-- `compute_estimate_for_activity` (emissions.py lines 77-117): resolve a
factor, multiply, quantize to 6 decimal places half-even, and build the
estimate row. -/
def compute_estimate_for_activity (factors : List EmissionFactor)
    (record : ActivityRecord) : Option EmissionEstimate :=
  match get_matching_factor factors record.activity_type record.unit record.scope
      record.scope_3_category record.period_start record.period_end with
  | none => none
  | some factor =>
    some
      { company_id := record.company_id
        activity_record_id := record.id
        emission_factor_id := factor.id
        scope := record.scope
        scope_3_category := record.scope_3_category
        activity_quantity := record.quantity
        factor_value := factor.factor_value
        emissions_kg_co2e := quantize6 (record.quantity * factor.factor_value)
        data_quality := record.data_quality
        assumptions := record.assumptions
        confidence_score := record.confidence_score
        period_start := record.period_start
        period_end := record.period_end }

/-- `ensure_estimates_for_activity` (emissions.py lines 120-141): in replace
mode delete existing estimates for the record first, otherwise no-op when one
already exists; then compute. Returns the new estimate table and the created
estimate (or `None`). -/
def ensure_estimates_for_activity (factors : List EmissionFactor)
    (estimates : List EmissionEstimate) (record : ActivityRecord)
    (replace_existing : Bool) : List EmissionEstimate × Option EmissionEstimate :=
  if replace_existing then
    let remaining := estimates.filter (fun e => !(e.activity_record_id == record.id))
    match compute_estimate_for_activity factors record with
    | none => (remaining, none)
    | some est => (remaining ++ [est], some est)
  else
    if estimates.any (fun e => e.activity_record_id == record.id) then
      (estimates, none)
    else
      match compute_estimate_for_activity factors record with
      | none => (estimates, none)
      | some est => (estimates ++ [est], some est)

/-- The per-record loop of `compute_estimates_for_company` (emissions.py lines
162-176), threading the estimate table and the created-count through the
record list. -/
def processRecords (factors : List EmissionFactor) (replace_existing : Bool) :
    List ActivityRecord → List EmissionEstimate → Nat → List EmissionEstimate × Nat
  | [], estimates, count => (estimates, count)
  | record :: rest, estimates, count =>
    if replace_existing then
      let remaining := estimates.filter (fun e => !(e.activity_record_id == record.id))
      match compute_estimate_for_activity factors record with
      | none => processRecords factors replace_existing rest remaining count
      | some est => processRecords factors replace_existing rest (remaining ++ [est]) (count + 1)
    else
      if estimates.any (fun e => e.activity_record_id == record.id) then
        processRecords factors replace_existing rest estimates count
      else
        match compute_estimate_for_activity factors record with
        | none => processRecords factors replace_existing rest estimates count
        | some est => processRecords factors replace_existing rest (estimates ++ [est]) (count + 1)

/-- The record query of `compute_estimates_for_company` (emissions.py lines
155-159): the company's records, optionally restricted to those whose period
intersects the given window. -/
def selectRecords (records : List ActivityRecord) (company_id : Nat)
    (period_start period_end : Option Date) : List ActivityRecord :=
  records.filter (fun r =>
    r.company_id == company_id &&
    (match period_start with
     | none => true
     | some d => dateLe d r.period_end) &&
    (match period_end with
     | none => true
     | some d => dateLe r.period_start d))

/-- `compute_estimates_for_company` (emissions.py lines 144-178): run the
per-record loop over the selected records, starting the created-count at 0.
Returns the final estimate table and the count. -/
def compute_estimates_for_company (factors : List EmissionFactor)
    (records : List ActivityRecord) (estimates : List EmissionEstimate)
    (company_id : Nat) (period_start period_end : Option Date)
    (replace_existing : Bool) : List EmissionEstimate × Nat :=
  processRecords factors replace_existing
    (selectRecords records company_id period_start period_end) estimates 0

/-- Zero-pad a number to 2 digits, as `strftime` does for `%m`. -/
def pad2 (n : Nat) : String := if n < 10 then "0" ++ toString n else toString n

/-- Zero-pad a number to 4 digits, as `strftime` does for `%Y`. -/
def pad4 (n : Nat) : String :=
  if n < 10 then "000" ++ toString n
  else if n < 100 then "00" ++ toString n
  else if n < 1000 then "0" ++ toString n
  else toString n

/-- `d.strftime("%Y-%m")` (emissions.py line 224). -/
def strftimeYM (d : Date) : String := pad4 d.year ++ "-" ++ pad2 d.month

/-- Bucket key of the aggregator: (period_type, period_value, scope,
scope_3_category). -/
abbrev BucketKey := String × String × Int × Option String

/-- The annual bucket key of an estimate (emissions.py line 222). -/
def annualKey (reporting_year : Nat) (e : EmissionEstimate) : BucketKey :=
  ("annual", toString reporting_year, e.scope, e.scope_3_category)

/-- The monthly bucket key of an estimate (emissions.py lines 224-225). -/
def monthlyKey (e : EmissionEstimate) : BucketKey :=
  ("monthly", strftimeYM e.period_start, e.scope, e.scope_3_category)

/-- `buckets.setdefault(key, []).append(est)` on an insertion-ordered dict
embedded as an association list. -/
def addToBucket (buckets : List (BucketKey × List EmissionEstimate))
    (k : BucketKey) (e : EmissionEstimate) : List (BucketKey × List EmissionEstimate) :=
  if buckets.any (fun p => p.1 == k) then
    buckets.map (fun p => if p.1 == k then (p.1, p.2 ++ [e]) else p)
  else buckets ++ [(k, [e])]

/-- The grouping loop of `refresh_emissions_summaries` (emissions.py lines
220-226): each estimate is added to its annual bucket and then to its monthly
bucket. -/
def buildBuckets (reporting_year : Nat) :
    List EmissionEstimate → List (BucketKey × List EmissionEstimate) →
      List (BucketKey × List EmissionEstimate)
  | [], buckets => buckets
  | e :: rest, buckets =>
    buildBuckets reporting_year rest
      (addToBucket (addToBucket buckets (annualKey reporting_year e) e) (monthlyKey e) e)

/-- The estimate query of `refresh_emissions_summaries` (emissions.py lines
209-215): the company's estimates whose period lies entirely within the
reporting year. -/
def loadEstimates (estimates : List EmissionEstimate) (company_id reporting_year : Nat) :
    List EmissionEstimate :=
  estimates.filter (fun e =>
    e.company_id == company_id &&
    dateLe ⟨reporting_year, 1, 1⟩ e.period_start &&
    dateLe e.period_end ⟨reporting_year, 12, 31⟩)

/-- `sum(e.emissions_kg_co2e for e in group)`. -/
def sumEmissions (l : List EmissionEstimate) : ℚ :=
  (l.map (fun e => e.emissions_kg_co2e)).sum

/-- `[e.confidence_score for e in group if e.confidence_score is not None]`
(emissions.py line 234). -/
def confScores (group : List EmissionEstimate) : List ℚ :=
  group.filterMap (fun e => e.confidence_score)

/-- `(sum(conf_scores) / len(conf_scores)).quantize(Decimal("0.01")) if
conf_scores else None` (emissions.py line 235). -/
def confidenceAvg (group : List EmissionEstimate) : Option ℚ :=
  let scores := confScores group
  if scores.isEmpty then none
  else some (quantize2 (scores.sum / (scores.length : ℚ)))

/-- The `EmissionsSummary` row built for one bucket (emissions.py lines
229-250). -/
def mkSummary (company_id reporting_year : Nat) (k : BucketKey)
    (group : List EmissionEstimate) : EmissionsSummary :=
  { company_id := company_id
    reporting_year := reporting_year
    period_type := k.1
    period_value := k.2.1
    scope := k.2.2.1
    scope_3_category := k.2.2.2
    total_kg_co2e := sumEmissions group
    measured_kg_co2e :=
      sumEmissions (group.filter (fun e => e.data_quality == DATA_QUALITY_MEASURED))
    estimated_kg_co2e :=
      sumEmissions (group.filter (fun e => e.data_quality == DATA_QUALITY_ESTIMATED))
    manual_kg_co2e :=
      sumEmissions (group.filter (fun e => e.data_quality == DATA_QUALITY_MANUAL))
    confidence_score_avg := confidenceAvg group }

/-- The summary rows `refresh_emissions_summaries` creates for a company and
year: one per bucket, in bucket insertion order. -/
def summaryRowsFor (estimates : List EmissionEstimate) (company_id reporting_year : Nat) :
    List EmissionsSummary :=
  (buildBuckets reporting_year (loadEstimates estimates company_id reporting_year) []).map
    (fun p => mkSummary company_id reporting_year p.1 p.2)

/-- `refresh_emissions_summaries` (emissions.py lines 187-253): delete the
company-year's existing summaries, rebuild one row per bucket from the
estimates of that company and year, and return the new table together with
the number of rows created. -/
def refresh_emissions_summaries (summaries : List EmissionsSummary)
    (estimates : List EmissionEstimate) (company_id reporting_year : Nat) :
    List EmissionsSummary × Nat :=
  let kept := summaries.filter (fun s =>
    !(s.company_id == company_id && s.reporting_year == reporting_year))
  let rows := summaryRowsFor estimates company_id reporting_year
  (kept ++ rows, rows.length)

/-- Propositional form of strict date order. -/
def DateLtP (a b : Date) : Prop :=
  a.year < b.year ∨ (a.year = b.year ∧ (a.month < b.month ∨ (a.month = b.month ∧ a.day < b.day)))

/-- Propositional form of weak date order. -/
def DateLeP (a b : Date) : Prop :=
  a.year < b.year ∨ (a.year = b.year ∧ (a.month < b.month ∨ (a.month = b.month ∧ a.day ≤ b.day)))

/-- Propositional form of `optDateLt`: strict order on optional dates with
`none` below every date. -/
def OptDateLtP (a b : Option Date) : Prop :=
  match a, b with
  | none, some _ => True
  | none, none => False
  | some _, none => False
  | some x, some y => DateLtP x y

/-- `y` is the half-even rounding of `x` to 6 decimal places: `y` is an
integer number of millionths, within half a millionth of `x`, and at an exact
tie that integer is even. -/
def IsHalfEvenRounding6 (x y : ℚ) : Prop :=
  ∃ n : ℤ, y = (n : ℚ) / 1000000 ∧ |x - y| ≤ 1 / 2000000 ∧
    (|x - y| = 1 / 2000000 → n % 2 = 0)

/-- The keys of a bucket association list. -/
def keysOf (buckets : List (BucketKey × List EmissionEstimate)) : List BucketKey :=
  buckets.map (fun p => p.1)

/-- The group stored under a key in a bucket association list: the first
entry with that key (empty when the key is absent). -/
def bucketGroup : List (BucketKey × List EmissionEstimate) → BucketKey →
    List EmissionEstimate
  | [], _ => []
  | b :: bs, k => if b.1 == k then b.2 else bucketGroup bs k

/-- Concrete fixture: an open-ended factor (NULL `valid_to`). -/
def fOpenEnded : EmissionFactor :=
  { id := 1, activity_type := "grid_electricity", factor_value := 2/10, unit := "kwh"
    scope := 2, scope_3_category := none, valid_from := some ⟨2020, 1, 1⟩, valid_to := none }

/-- Concrete fixture: a bounded factor for the same signature. -/
def fBounded : EmissionFactor :=
  { id := 2, activity_type := "grid_electricity", factor_value := 3/10, unit := "kwh"
    scope := 2, scope_3_category := none, valid_from := some ⟨2021, 1, 1⟩
    valid_to := some ⟨2030, 12, 31⟩ }

/-- Concrete fixture: the spec's cloud-compute factor, value 0.00005,
open validity. -/
def fCloud : EmissionFactor :=
  { id := 3, activity_type := "cloud_compute_hours", factor_value := 5/100000, unit := "hours"
    scope := 3, scope_3_category := some "cloud", valid_from := none, valid_to := none }

/-- Concrete fixture: the spec's cloud-compute observation, 800 hours in
January 2025. -/
def rCloud : ActivityRecord :=
  { id := 10, company_id := 1, scope := 3, scope_3_category := some "cloud"
    activity_type := "cloud_compute_hours", quantity := 800, unit := "hours"
    period_start := ⟨2025, 1, 1⟩, period_end := ⟨2025, 1, 28⟩
    data_quality := "estimated", assumptions := none, confidence_score := some 70 }

/-- Concrete fixture: a factor valid only January-March 2025, to exercise
partial overlap. -/
def fPartialWin : EmissionFactor :=
  { id := 4, activity_type := "gas", factor_value := 1, unit := "m3", scope := 1
    scope_3_category := none, valid_from := some ⟨2025, 1, 1⟩, valid_to := some ⟨2025, 3, 31⟩ }

/-- Concrete fixture: a base estimate row for aggregator scenarios. -/
def estBase : EmissionEstimate :=
  { company_id := 1, activity_record_id := 21, emission_factor_id := 3, scope := 3
    scope_3_category := some "cloud", activity_quantity := 800, factor_value := 5/100000
    emissions_kg_co2e := 1/25, data_quality := "estimated", assumptions := none
    confidence_score := some 90, period_start := ⟨2025, 1, 1⟩, period_end := ⟨2025, 1, 28⟩ }

/-- Concrete fixture: a bucket of three estimates with confidence 90, 80 and
NULL. -/
def estsConf : List EmissionEstimate :=
  [estBase,
   { estBase with activity_record_id := 22, confidence_score := some 80 },
   { estBase with activity_record_id := 23, confidence_score := none }]

/-- Concrete fixture: an estimate spanning several months of 2025. -/
def estSpanning : EmissionEstimate :=
  { estBase with activity_record_id := 24, period_start := ⟨2025, 1, 15⟩
                 period_end := ⟨2025, 3, 20⟩ }

/-- Concrete fixture: a pre-existing summary row of company 1, year 2025. -/
def sumStale : EmissionsSummary :=
  { company_id := 1, reporting_year := 2025, period_type := "annual", period_value := "2025"
    scope := 3, scope_3_category := some "cloud", total_kg_co2e := 7
    measured_kg_co2e := 0, estimated_kg_co2e := 7, manual_kg_co2e := 0
    confidence_score_avg := none }

/-- Concrete fixture: a summary row of another year, which a refresh of 2025
must keep. -/
def sumOther : EmissionsSummary :=
  { sumStale with reporting_year := 2024, period_value := "2024" }

/-- Concrete fixture: an observation for which no factor resolves. -/
def rNoFactor : ActivityRecord :=
  { id := 30, company_id := 1, scope := 1, scope_3_category := none
    activity_type := "novel_activity", quantity := 5, unit := "kg"
    period_start := ⟨2025, 2, 1⟩, period_end := ⟨2025, 2, 28⟩
    data_quality := "measured", assumptions := none, confidence_score := none }

/-- Concrete fixture: a stale estimate attached to `rNoFactor`. -/
def estStale : EmissionEstimate :=
  { estBase with activity_record_id := 30, emissions_kg_co2e := 9 }

/-- The bucket key a summary row was written from (`mkSummary` copies the key
fields verbatim). -/
def keyOfSummary (s : EmissionsSummary) : BucketKey :=
  (s.period_type, s.period_value, s.scope, s.scope_3_category)

/-- The estimates of a company-year that fall into the bucket with key `k`:
those whose annual or monthly key equals `k`. -/
def bucketMembers (estimates : List EmissionEstimate) (company_id reporting_year : Nat)
    (k : BucketKey) : List EmissionEstimate :=
  (loadEstimates estimates company_id reporting_year).filter
    (fun e => annualKey reporting_year e == k || monthlyKey e == k)

/-- Concrete fixture: the annual summary row built from the
confidence-average bucket. -/
def sConf : EmissionsSummary :=
  mkSummary 1 2025 ("annual", "2025", 3, some "cloud") estsConf

lemma dateLe_iff (a b : Date) : dateLe a b = true ↔ DateLeP a b := by
  cases a
  cases b
  simp [dateLe, DateLeP, Bool.or_eq_true, Bool.and_eq_true, decide_eq_true_eq]

lemma dateLt_iff (a b : Date) : dateLt a b = true ↔ DateLtP a b := by
  cases a
  cases b
  simp [dateLt, DateLtP, Bool.or_eq_true, Bool.and_eq_true, decide_eq_true_eq]

lemma dateLtP_irrefl (a : Date) : ¬ DateLtP a a := by
  unfold DateLtP
  omega

lemma dateLtP_trans {a b c : Date} (h1 : DateLtP a b) (h2 : DateLtP b c) : DateLtP a c := by
  unfold DateLtP at *
  omega

lemma dateLtP_trich (a b : Date) : DateLtP a b ∨ a = b ∨ DateLtP b a := by
  cases a
  cases b
  simp only [DateLtP, Date.mk.injEq]
  omega

lemma optDateLtP_irrefl (a : Option Date) : ¬ OptDateLtP a a := by
  cases a with
  | none => simp [OptDateLtP]
  | some x => simpa [OptDateLtP] using dateLtP_irrefl x

lemma optDateLtP_trans {a b c : Option Date} (h1 : OptDateLtP a b) (h2 : OptDateLtP b c) :
    OptDateLtP a c := by
  cases a <;> cases b <;> cases c <;> simp_all [OptDateLtP]
  exact dateLtP_trans h1 h2

lemma optDateLtP_trich (a b : Option Date) : OptDateLtP a b ∨ a = b ∨ OptDateLtP b a := by
  cases a <;> cases b <;> simp [OptDateLtP]
  exact dateLtP_trich _ _

lemma optDateLt_iff (a b : Option Date) : optDateLt a b = true ↔ OptDateLtP a b := by
  cases a <;> cases b <;> simp [optDateLt, OptDateLtP, dateLt_iff]

lemma orderKeyLt_iff (a b : EmissionFactor) :
    orderKeyLt a b = true ↔
      (OptDateLtP b.valid_to a.valid_to ∨
        (a.valid_to = b.valid_to ∧ OptDateLtP b.valid_from a.valid_from)) := by
  simp [orderKeyLt, Bool.or_eq_true, Bool.and_eq_true, beq_iff_eq, optDateLt_iff]

lemma orderKeyLt_irrefl (a : EmissionFactor) : orderKeyLt a a = false := by
  rw [Bool.eq_false_iff]
  intro h
  rw [orderKeyLt_iff] at h
  rcases h with h | ⟨_, h⟩
  · exact optDateLtP_irrefl _ h
  · exact optDateLtP_irrefl _ h

lemma orderKeyLt_asymm {a b : EmissionFactor} (h : orderKeyLt a b = true) :
    orderKeyLt b a = false := by
  rw [Bool.eq_false_iff]
  intro h2
  rw [orderKeyLt_iff] at h h2
  rcases h with h | ⟨he, h⟩ <;> rcases h2 with h2 | ⟨he2, h2⟩
  · exact optDateLtP_irrefl _ (optDateLtP_trans h h2)
  · rw [he2] at h
    exact optDateLtP_irrefl _ h
  · rw [he] at h2
    exact optDateLtP_irrefl _ h2
  · exact optDateLtP_irrefl _ (optDateLtP_trans h h2)

lemma orderKeyLt_trans {a b c : EmissionFactor} (h1 : orderKeyLt a b = true)
    (h2 : orderKeyLt b c = true) : orderKeyLt a c = true := by
  rw [orderKeyLt_iff] at *
  rcases h1 with h1 | ⟨he1, h1⟩ <;> rcases h2 with h2 | ⟨he2, h2⟩
  · exact Or.inl (optDateLtP_trans h2 h1)
  · refine Or.inl ?_
    rw [← he2]
    exact h1
  · refine Or.inl ?_
    rw [he1]
    exact h2
  · exact Or.inr ⟨he1.trans he2, optDateLtP_trans h2 h1⟩

lemma orderKeyLt_congr_left {a b c : EmissionFactor} (hvt : a.valid_to = b.valid_to)
    (hvf : a.valid_from = b.valid_from) : orderKeyLt a c = orderKeyLt b c := by
  simp [orderKeyLt, hvt, hvf]

lemma orderKeyLt_trich (a b : EmissionFactor) :
    orderKeyLt a b = true ∨ (a.valid_to = b.valid_to ∧ a.valid_from = b.valid_from) ∨
      orderKeyLt b a = true := by
  rcases optDateLtP_trich a.valid_to b.valid_to with h | h | h
  · exact Or.inr (Or.inr ((orderKeyLt_iff b a).mpr (Or.inl h)))
  · rcases optDateLtP_trich a.valid_from b.valid_from with h2 | h2 | h2
    · exact Or.inr (Or.inr ((orderKeyLt_iff b a).mpr (Or.inr ⟨h.symm, h2⟩)))
    · exact Or.inr (Or.inl ⟨h, h2⟩)
    · exact Or.inl ((orderKeyLt_iff a b).mpr (Or.inr ⟨h, h2⟩))
  · exact Or.inl ((orderKeyLt_iff a b).mpr (Or.inl h))

lemma pickFirstOrdered_eq_none_iff (l : List EmissionFactor) :
    pickFirstOrdered l = none ↔ l = [] := by
  cases l with
  | nil => simp [pickFirstOrdered]
  | cons f rest =>
    simp only [pickFirstOrdered]
    cases pickFirstOrdered rest with
    | none => simp
    | some g =>
      by_cases h : orderKeyLt g f = true <;> simp [h]

lemma pickFirstOrdered_mem : ∀ {l : List EmissionFactor} {f : EmissionFactor},
    pickFirstOrdered l = some f → f ∈ l := by
  intro l
  induction l with
  | nil =>
    intro f h
    simp [pickFirstOrdered] at h
  | cons x rest ih =>
    intro f h
    simp only [pickFirstOrdered] at h
    cases hr : pickFirstOrdered rest with
    | none =>
      rw [hr] at h
      simp at h
      simp [h]
    | some g =>
      rw [hr] at h
      by_cases hlt : orderKeyLt g x = true
      · simp [hlt] at h
        exact List.mem_cons_of_mem x (h ▸ ih hr)
      · simp [hlt] at h
        simp [h]

lemma pickFirstOrdered_max : ∀ {l : List EmissionFactor} {f : EmissionFactor},
    pickFirstOrdered l = some f → ∀ g ∈ l, orderKeyLt g f = false := by
  intro l
  induction l with
  | nil => simp
  | cons x rest ih =>
    intro f h
    simp only [pickFirstOrdered] at h
    cases hr : pickFirstOrdered rest with
    | none =>
      rw [hr] at h
      simp at h
      rw [pickFirstOrdered_eq_none_iff] at hr
      subst hr
      intro g hg
      rw [List.mem_singleton] at hg
      subst hg
      rw [← h]
      exact orderKeyLt_irrefl g
    | some g0 =>
      rw [hr] at h
      have hmax := ih hr
      by_cases hlt : orderKeyLt g0 x = true
      · simp [hlt] at h
        subst h
        intro g hg
        rcases List.mem_cons.mp hg with rfl | hg
        · exact orderKeyLt_asymm hlt
        · exact hmax g hg
      · simp [hlt] at h
        subst h
        intro g hg
        rcases List.mem_cons.mp hg with rfl | hg
        · exact orderKeyLt_irrefl g
        · rw [Bool.eq_false_iff]
          intro hgf
          rcases orderKeyLt_trich g g0 with h1 | ⟨h1, h2⟩ | h1
          · rw [hmax g hg] at h1
            exact Bool.false_ne_true h1
          · rw [orderKeyLt_congr_left h1 h2] at hgf
            exact hlt hgf
          · have := orderKeyLt_trans h1 hgf
            exact hlt this

lemma roundHalfEvenInt_spec (x : ℚ) :
    |x - (roundHalfEvenInt x : ℚ)| ≤ 1/2 ∧
      (|x - (roundHalfEvenInt x : ℚ)| = 1/2 → roundHalfEvenInt x % 2 = 0) := by
  have hfl : ((⌊x⌋ : ℤ) : ℚ) ≤ x := Int.floor_le x
  have hfu : x < (⌊x⌋ : ℤ) + 1 := Int.lt_floor_add_one x
  unfold roundHalfEvenInt
  split_ifs with h1 h2 h3
  · rw [abs_of_nonneg (by linarith)]
    constructor
    · linarith
    · intro heq
      exfalso
      linarith
  · push_cast
    rw [abs_of_nonpos (by linarith)]
    constructor
    · linarith
    · intro heq
      exfalso
      linarith
  · have heq : x - (⌊x⌋ : ℤ) = 1/2 := le_antisymm (not_lt.mp h2) (not_lt.mp h1)
    rw [abs_of_nonneg (by linarith)]
    exact ⟨by linarith, fun _ => h3⟩
  · have heq : x - (⌊x⌋ : ℤ) = 1/2 := le_antisymm (not_lt.mp h2) (not_lt.mp h1)
    push_cast
    rw [abs_of_nonpos (by linarith)]
    refine ⟨by linarith, fun _ => ?_⟩
    omega

lemma quantize6_spec (x : ℚ) : IsHalfEvenRounding6 x (quantize6 x) := by
  obtain ⟨hle, htie⟩ := roundHalfEvenInt_spec (x * 1000000)
  have key : x - (roundHalfEvenInt (x * 1000000) : ℚ) / 1000000 =
      (x * 1000000 - (roundHalfEvenInt (x * 1000000) : ℚ)) / 1000000 := by ring
  have habs : |x - (roundHalfEvenInt (x * 1000000) : ℚ) / 1000000| =
      |x * 1000000 - (roundHalfEvenInt (x * 1000000) : ℚ)| / 1000000 := by
    rw [key, abs_div, abs_of_pos (show (0:ℚ) < 1000000 by norm_num)]
  refine ⟨roundHalfEvenInt (x * 1000000), rfl, ?_, ?_⟩
  · rw [quantize6, habs, div_le_iff₀ (show (0:ℚ) < 1000000 by norm_num)]
    have h2 : (1:ℚ)/2000000 * 1000000 = 1/2 := by norm_num
    rw [h2]
    exact hle
  · intro heq
    apply htie
    rw [quantize6, habs, div_eq_iff (show (1000000:ℚ) ≠ 0 by norm_num)] at heq
    have h2 : (1:ℚ)/2000000 * 1000000 = 1/2 := by norm_num
    rw [h2] at heq
    exact heq

/-- C3: the resolver's temporal predicate accepts a factor iff
(`valid_from` is absent or `valid_from` ≤ period_end) and (`valid_to` is
absent or `valid_to` ≥ period_start): any overlap between factor validity
and observation period qualifies, not full containment. -/
theorem temporalOk_iff_overlap (f : EmissionFactor) (ps pe : Date) :
    temporalOk f ps pe = true ↔
      ((f.valid_from = none ∨ ∃ d, f.valid_from = some d ∧ DateLeP d pe) ∧
       (f.valid_to = none ∨ ∃ d, f.valid_to = some d ∧ DateLeP ps d)) := by
  cases hf : f.valid_from <;> cases ht : f.valid_to <;>
    simp [temporalOk, hf, ht, dateLe_iff]

/-- Witness for C3: a factor valid only January-March 2025 is accepted for an
observation period February-December 2025 — overlap without containment. -/
theorem temporalOk_iff_overlap_witness :
    temporalOk fPartialWin ⟨2025, 2, 1⟩ ⟨2025, 12, 31⟩ = true :=
  (temporalOk_iff_overlap fPartialWin ⟨2025, 2, 1⟩ ⟨2025, 12, 31⟩).mpr
    (by constructor
        · refine Or.inr ⟨⟨2025, 1, 1⟩, rfl, ?_⟩
          simp [DateLeP]
        · refine Or.inr ⟨⟨2025, 3, 31⟩, rfl, ?_⟩
          simp [DateLeP])

/-- Counterexample for C1: both an open-ended factor (NULL `valid_to`) and a
bounded one match the query, and the resolver returns the *bounded* one —
`DESC NULLS LAST` sorts a NULL `valid_to` after every bounded date, so an
open-ended factor is least preferred, not most preferred. -/
theorem resolver_nulls_last_counterexample :
    factorMatches fOpenEnded "grid_electricity" "kwh" 2 none ⟨2025, 6, 1⟩ ⟨2025, 6, 30⟩ = true ∧
    factorMatches fBounded "grid_electricity" "kwh" 2 none ⟨2025, 6, 1⟩ ⟨2025, 6, 30⟩ = true ∧
    fOpenEnded.valid_to = none ∧
    fBounded.valid_to = some ⟨2030, 12, 31⟩ ∧
    get_matching_factor [fOpenEnded, fBounded] "grid_electricity" "kwh" 2 none
      ⟨2025, 6, 1⟩ ⟨2025, 6, 30⟩ = some fBounded := by
  refine ⟨by decide, by decide, rfl, rfl, rfl⟩

/-- C1 (amended): `resolve` returns `NotFound` exactly when no factor matches;
otherwise it returns a matching factor that is maximal for the order
"latest `valid_to` first with NULL `valid_to` sorted last (so an open-ended
factor wins only when no bounded candidate exists), ties broken by latest
`valid_from` with NULL `valid_from` last" — a deterministic single winner. -/
theorem get_matching_factor_spec (factors : List EmissionFactor)
    (activity_type unit : String) (scope : Int) (cat : Option String) (ps pe : Date) :
    (get_matching_factor factors activity_type unit scope cat ps pe = none ↔
      factors.filter (fun g => factorMatches g activity_type unit scope cat ps pe) = []) ∧
    (∀ f, get_matching_factor factors activity_type unit scope cat ps pe = some f →
      f ∈ factors ∧ factorMatches f activity_type unit scope cat ps pe = true ∧
      ∀ g ∈ factors, factorMatches g activity_type unit scope cat ps pe = true →
        ¬ OptDateLtP f.valid_to g.valid_to ∧
        (g.valid_to = f.valid_to → ¬ OptDateLtP f.valid_from g.valid_from)) := by
  constructor
  · exact pickFirstOrdered_eq_none_iff _
  · intro f h
    have hmem := pickFirstOrdered_mem h
    rw [List.mem_filter] at hmem
    refine ⟨hmem.1, hmem.2, ?_⟩
    intro g hg hgm
    have hgf : g ∈ factors.filter
        (fun g => factorMatches g activity_type unit scope cat ps pe) :=
      List.mem_filter.mpr ⟨hg, hgm⟩
    have hmax := pickFirstOrdered_max h g hgf
    have hmax2 : ¬ (OptDateLtP f.valid_to g.valid_to ∨
        (g.valid_to = f.valid_to ∧ OptDateLtP f.valid_from g.valid_from)) := by
      rw [← orderKeyLt_iff g f]
      simp [hmax]
    push_neg at hmax2
    exact hmax2

/-- Witness for C1's amended theorem at the two-factor counterexample set. -/
theorem get_matching_factor_spec_witness :
    fBounded ∈ [fOpenEnded, fBounded] ∧
    factorMatches fBounded "grid_electricity" "kwh" 2 none ⟨2025, 6, 1⟩ ⟨2025, 6, 30⟩ = true ∧
    ∀ g ∈ [fOpenEnded, fBounded],
      factorMatches g "grid_electricity" "kwh" 2 none ⟨2025, 6, 1⟩ ⟨2025, 6, 30⟩ = true →
        ¬ OptDateLtP fBounded.valid_to g.valid_to ∧
        (g.valid_to = fBounded.valid_to → ¬ OptDateLtP fBounded.valid_from g.valid_from) :=
  (get_matching_factor_spec [fOpenEnded, fBounded] "grid_electricity" "kwh" 2 none
    ⟨2025, 6, 1⟩ ⟨2025, 6, 30⟩).2 fBounded rfl

/-- C2: for an observation whose factor resolves, the computed estimate copies
the quantity and factor value and its emissions figure is exactly the
half-even rounding of quantity × factor value to 6 decimal places, in exact
rational arithmetic. -/
theorem compute_estimate_half_even (factors : List EmissionFactor)
    (record : ActivityRecord) (f : EmissionFactor)
    (h : get_matching_factor factors record.activity_type record.unit record.scope
      record.scope_3_category record.period_start record.period_end = some f) :
    ∃ est, compute_estimate_for_activity factors record = some est ∧
      est.activity_quantity = record.quantity ∧
      est.factor_value = f.factor_value ∧
      est.emissions_kg_co2e = quantize6 (record.quantity * f.factor_value) ∧
      IsHalfEvenRounding6 (record.quantity * f.factor_value) est.emissions_kg_co2e := by
  unfold compute_estimate_for_activity
  rw [h]
  exact ⟨_, rfl, rfl, rfl, rfl, quantize6_spec _⟩

/-- Witness for C2: the spec scenario — 800 cloud-compute hours at factor
0.00005 yields emissions 0.040000 = 1/25 kg CO2e. -/
theorem compute_estimate_half_even_witness :
    (∃ est, compute_estimate_for_activity [fCloud] rCloud = some est ∧
      est.activity_quantity = rCloud.quantity ∧
      est.factor_value = fCloud.factor_value ∧
      est.emissions_kg_co2e = quantize6 (rCloud.quantity * fCloud.factor_value) ∧
      IsHalfEvenRounding6 (rCloud.quantity * fCloud.factor_value) est.emissions_kg_co2e) ∧
    quantize6 (rCloud.quantity * fCloud.factor_value) = 1/25 :=
  ⟨compute_estimate_half_even [fCloud] rCloud fCloud rfl, by
    have hx : rCloud.quantity * fCloud.factor_value = 1/25 := by
      norm_num [rCloud, fCloud]
    rw [hx]
    simp only [quantize6, roundHalfEvenInt]
    have h40 : ((1:ℚ)/25) * 1000000 = ((40000:ℤ) : ℚ) := by norm_num
    rw [h40, Int.floor_intCast]
    norm_num⟩

lemma compute_estimate_aid {factors : List EmissionFactor} {record : ActivityRecord}
    {est : EmissionEstimate} (h : compute_estimate_for_activity factors record = some est) :
    est.activity_record_id = record.id := by
  unfold compute_estimate_for_activity at h
  split at h
  · exact absurd h (by simp)
  · injection h with h
    rw [← h]

lemma processRecords_incr_mono (factors : List EmissionFactor) :
    ∀ (l : List ActivityRecord) (st : List EmissionEstimate) (c : Nat)
      (e : EmissionEstimate), e ∈ st → e ∈ (processRecords factors false l st c).1 := by
  intro l
  induction l with
  | nil =>
    intro st c e he
    simpa [processRecords] using he
  | cons r rest ih =>
    intro st c e he
    simp only [processRecords, Bool.false_eq_true, if_false]
    by_cases hany : st.any (fun e2 => e2.activity_record_id == r.id) = true
    · rw [if_pos hany]
      exact ih st c e he
    · rw [if_neg hany]
      cases hc : compute_estimate_for_activity factors r with
      | none => exact ih st c e he
      | some est => exact ih (st ++ [est]) (c + 1) e (List.mem_append_left _ he)

lemma processRecords_incr_covered (factors : List EmissionFactor) :
    ∀ (l : List ActivityRecord) (st : List EmissionEstimate) (c : Nat)
      (r : ActivityRecord), r ∈ l →
      (∃ e ∈ (processRecords factors false l st c).1, e.activity_record_id = r.id) ∨
      compute_estimate_for_activity factors r = none := by
  intro l
  induction l with
  | nil =>
    intro st c r hr
    simp at hr
  | cons r0 rest ih =>
    intro st c r hr
    simp only [processRecords, Bool.false_eq_true, if_false]
    rcases List.mem_cons.mp hr with rfl | hr2
    · by_cases hany : st.any (fun e2 => e2.activity_record_id == r.id) = true
      · rw [if_pos hany]
        rcases List.any_eq_true.mp hany with ⟨e, he, heq⟩
        exact Or.inl ⟨e, processRecords_incr_mono factors rest st c e he,
          by simpa using heq⟩
      · rw [if_neg hany]
        cases hc : compute_estimate_for_activity factors r with
        | none => exact Or.inr rfl
        | some est =>
          refine Or.inl ⟨est, ?_, compute_estimate_aid hc⟩
          exact processRecords_incr_mono factors rest (st ++ [est]) (c + 1) est
            (List.mem_append_right _ (List.mem_singleton.mpr rfl))
    · by_cases hany : st.any (fun e2 => e2.activity_record_id == r0.id) = true
      · rw [if_pos hany]
        exact ih st c r hr2
      · rw [if_neg hany]
        cases hc : compute_estimate_for_activity factors r0 with
        | none => exact ih st c r hr2
        | some est => exact ih (st ++ [est]) (c + 1) r hr2

lemma processRecords_incr_noop (factors : List EmissionFactor) :
    ∀ (l : List ActivityRecord) (st : List EmissionEstimate) (c : Nat),
      (∀ r ∈ l, (∃ e ∈ st, e.activity_record_id = r.id) ∨
        compute_estimate_for_activity factors r = none) →
      processRecords factors false l st c = (st, c) := by
  intro l
  induction l with
  | nil =>
    intro st c _
    simp [processRecords]
  | cons r rest ih =>
    intro st c hcov
    simp only [processRecords, Bool.false_eq_true, if_false]
    by_cases hany : st.any (fun e2 => e2.activity_record_id == r.id) = true
    · rw [if_pos hany]
      exact ih st c (fun r2 hr2 => hcov r2 (List.mem_cons_of_mem r hr2))
    · rw [if_neg hany]
      rcases hcov r (List.mem_cons_self r rest) with ⟨e, he, heq⟩ | hc
      · exact absurd (List.any_eq_true.mpr ⟨e, he, by simpa using heq⟩) hany
      · rw [hc]
        exact ih st c (fun r2 hr2 => hcov r2 (List.mem_cons_of_mem r hr2))

/-- C4: running `compute_estimates_for_company` in incremental mode a second
time, with the records and factor table unchanged, creates 0 estimates and
leaves the estimate table exactly as the first run left it. -/
theorem incremental_idempotent (factors : List EmissionFactor)
    (records : List ActivityRecord) (estimates : List EmissionEstimate)
    (company_id : Nat) (period_start period_end : Option Date) :
    compute_estimates_for_company factors records
      (compute_estimates_for_company factors records estimates company_id
        period_start period_end false).1
      company_id period_start period_end false =
    ((compute_estimates_for_company factors records estimates company_id
        period_start period_end false).1, 0) := by
  unfold compute_estimates_for_company
  apply processRecords_incr_noop
  intro r hr
  exact processRecords_incr_covered factors _ estimates 0 r hr

lemma processRecords_replace_cons_none (factors : List EmissionFactor)
    {r : ActivityRecord} (rest : List ActivityRecord) (st : List EmissionEstimate)
    (c : Nat) (h : compute_estimate_for_activity factors r = none) :
    processRecords factors true (r :: rest) st c =
      processRecords factors true rest
        (st.filter (fun e => !(e.activity_record_id == r.id))) c := by
  simp [processRecords, h]

lemma processRecords_replace_cons_some (factors : List EmissionFactor)
    {r : ActivityRecord} (rest : List ActivityRecord) (st : List EmissionEstimate)
    (c : Nat) (est : EmissionEstimate)
    (h : compute_estimate_for_activity factors r = some est) :
    processRecords factors true (r :: rest) st c =
      processRecords factors true rest
        (st.filter (fun e => !(e.activity_record_id == r.id)) ++ [est]) (c + 1) := by
  simp [processRecords, h]

lemma processRecords_replace_decomp (factors : List EmissionFactor) :
    ∀ (l : List ActivityRecord) (st : List EmissionEstimate) (c : Nat),
      processRecords factors true l st c =
        (st.filter (fun e => !(l.any (fun r2 => e.activity_record_id == r2.id))) ++
          (processRecords factors true l [] 0).1,
         c + (processRecords factors true l [] 0).2) := by
  intro l
  induction l with
  | nil =>
    intro st c
    simp [processRecords]
  | cons r rest ih =>
    intro st c
    have hpred : ∀ st2 : List EmissionEstimate,
        (st2.filter (fun e => !(e.activity_record_id == r.id))).filter
          (fun e => !(rest.any (fun r2 => e.activity_record_id == r2.id))) =
        st2.filter (fun e => !((r :: rest).any (fun r2 => e.activity_record_id == r2.id))) := by
      intro st2
      rw [List.filter_filter]
      apply List.filter_congr
      intro e _
      rw [List.any_cons, Bool.not_or, Bool.and_comm]
    cases hc : compute_estimate_for_activity factors r with
    | none =>
      rw [processRecords_replace_cons_none factors rest st c hc,
        processRecords_replace_cons_none factors rest [] 0 hc,
        ih (st.filter (fun e => !(e.activity_record_id == r.id))) c, hpred st]
      simp only [List.filter_nil]
    | some est =>
      rw [processRecords_replace_cons_some factors rest st c est hc,
        processRecords_replace_cons_some factors rest [] 0 est hc]
      simp only [List.filter_nil, List.nil_append]
      rw [ih (st.filter (fun e => !(e.activity_record_id == r.id)) ++ [est]) (c + 1),
        ih [est] 1]
      rw [List.filter_append, hpred st, List.append_assoc]
      simp only [Prod.mk.injEq]
      exact ⟨trivial, by omega⟩

lemma processRecords_gen_mem (factors : List EmissionFactor) :
    ∀ (l : List ActivityRecord) (st : List EmissionEstimate) (c : Nat)
      (e : EmissionEstimate), e ∈ (processRecords factors true l st c).1 →
      e ∈ st ∨ ∃ r ∈ l, compute_estimate_for_activity factors r = some e := by
  intro l
  induction l with
  | nil =>
    intro st c e he
    simp only [processRecords] at he
    exact Or.inl he
  | cons r rest ih =>
    intro st c e he
    simp only [processRecords, if_pos rfl] at he
    cases hc : compute_estimate_for_activity factors r with
    | none =>
      rw [hc] at he
      rcases ih _ _ e he with h | ⟨r2, hr2, hc2⟩
      · exact Or.inl (List.mem_of_mem_filter h)
      · exact Or.inr ⟨r2, List.mem_cons_of_mem r hr2, hc2⟩
    | some est =>
      rw [hc] at he
      rcases ih _ _ e he with h | ⟨r2, hr2, hc2⟩
      · rcases List.mem_append.mp h with h2 | h2
        · exact Or.inl (List.mem_of_mem_filter h2)
        · rw [List.mem_singleton] at h2
          subst h2
          exact Or.inr ⟨r, List.mem_cons_self r rest, hc⟩
      · exact Or.inr ⟨r2, List.mem_cons_of_mem r hr2, hc2⟩

/-- C5: running `compute_estimates_for_company` in replace mode twice in a
row, with the records and factor table unchanged, leaves the estimate table
exactly as the first run left it. -/
theorem replace_idempotent (factors : List EmissionFactor)
    (records : List ActivityRecord) (estimates : List EmissionEstimate)
    (company_id : Nat) (period_start period_end : Option Date) :
    (compute_estimates_for_company factors records
      (compute_estimates_for_company factors records estimates company_id
        period_start period_end true).1
      company_id period_start period_end true).1 =
    (compute_estimates_for_company factors records estimates company_id
      period_start period_end true).1 := by
  unfold compute_estimates_for_company
  rw [processRecords_replace_decomp factors _ estimates 0]
  rw [processRecords_replace_decomp factors _
    (List.filter _ estimates ++ (processRecords factors true _ [] 0).1) 0]
  simp only [List.filter_append, List.filter_filter, Bool.and_self]
  have hgen : (processRecords factors true (selectRecords records company_id
      period_start period_end) [] 0).1.filter
      (fun e => !((selectRecords records company_id period_start period_end).any
        (fun r2 => e.activity_record_id == r2.id))) = [] := by
    rw [List.filter_eq_nil_iff]
    intro e he
    rcases processRecords_gen_mem factors _ [] 0 e he with h | ⟨r, hr, hc⟩
    · simp at h
    · have haid := compute_estimate_aid hc
      simp only [Bool.not_eq_true', Bool.not_eq_false]
      exact List.any_eq_true.mpr ⟨r, hr, by rw [haid]; exact beq_self_eq_true r.id⟩
  rw [hgen, List.append_nil]

/-- C10: in replace mode, a selected observation's pre-existing estimates are
deleted regardless of factor resolution: when no factor resolves for its
record id, the post-state contains no estimate for that observation. -/
theorem replace_removes_unresolvable (factors : List EmissionFactor)
    (records : List ActivityRecord) (estimates : List EmissionEstimate)
    (company_id : Nat) (period_start period_end : Option Date) (r : ActivityRecord)
    (hr : r ∈ selectRecords records company_id period_start period_end)
    (hnone : ∀ r2 ∈ selectRecords records company_id period_start period_end,
      r2.id = r.id → compute_estimate_for_activity factors r2 = none) :
    ∀ e ∈ (compute_estimates_for_company factors records estimates company_id
      period_start period_end true).1, e.activity_record_id ≠ r.id := by
  intro e he heq
  unfold compute_estimates_for_company at he
  rw [processRecords_replace_decomp] at he
  rcases List.mem_append.mp he with h | h
  · rw [List.mem_filter] at h
    have hany : (selectRecords records company_id period_start period_end).any
        (fun r2 => e.activity_record_id == r2.id) = true :=
      List.any_eq_true.mpr ⟨r, hr, by rw [heq]; exact beq_self_eq_true r.id⟩
    rw [hany] at h
    exact Bool.false_ne_true h.2
  · rcases processRecords_gen_mem factors _ [] 0 e h with h2 | ⟨r2, hr2, hc2⟩
    · simp at h2
    · have haid := compute_estimate_aid hc2
      rw [hnone r2 hr2 (haid.symm.trans heq)] at hc2
      exact Option.noConfusion hc2

/-- Witness for C10: with an empty factor table, a replace run removes the
stale estimate of the unresolvable observation and creates nothing. -/
theorem replace_removes_unresolvable_witness :
    rNoFactor ∈ selectRecords [rNoFactor] 1 none none ∧
    ∀ e ∈ (compute_estimates_for_company [] [rNoFactor] [estStale] 1 none none true).1,
      e.activity_record_id ≠ rNoFactor.id :=
  ⟨by decide,
   replace_removes_unresolvable [] [rNoFactor] [estStale] 1 none none rNoFactor
     (by decide) (by decide)⟩

lemma annualKey_ne_monthlyKey (reporting_year : Nat) (e : EmissionEstimate) :
    annualKey reporting_year e ≠ monthlyKey e := by
  intro h
  have h1 := congrArg Prod.fst h
  simp only [annualKey, monthlyKey] at h1
  exact absurd h1 (by decide)

lemma bucketGroup_map (k k2 : BucketKey) (e : EmissionEstimate) :
    ∀ bs : List (BucketKey × List EmissionEstimate), (k2 = k → k ∈ keysOf bs) →
      bucketGroup (bs.map (fun p => if p.1 == k then (p.1, p.2 ++ [e]) else p)) k2 =
        bucketGroup bs k2 ++ (if k2 = k then [e] else []) := by
  intro bs
  induction bs with
  | nil =>
    intro h
    by_cases hk : k2 = k
    · exact absurd (h hk) (by simp [keysOf])
    · simp [bucketGroup, hk]
  | cons b bs ih =>
    intro h
    have hfb : (if (b.1 == k) = true then (b.1, b.2 ++ [e]) else b) =
        (b.1, if (b.1 == k) = true then b.2 ++ [e] else b.2) := by
      by_cases hbk : (b.1 == k) = true
      · simp [hbk]
      · simp [hbk]
    rw [List.map_cons, hfb]
    by_cases hb2 : (b.1 == k2) = true
    · simp only [bucketGroup, if_pos hb2]
      have hb1 : b.1 = k2 := by rwa [beq_iff_eq] at hb2
      by_cases hbk : (b.1 == k) = true
      · have hkk : k2 = k := hb1 ▸ (beq_iff_eq.mp hbk)
        simp [hbk, hkk]
      · have hkk : ¬ k2 = k := by
          intro hkk
          exact hbk (beq_iff_eq.mpr (hb1.trans hkk))
        simp [hbk, hkk]
    · simp only [bucketGroup, if_neg hb2]
      apply ih
      intro hkk
      have := h hkk
      simp only [keysOf, List.map_cons, List.mem_cons] at this
      rcases this with h2 | h2
      · exact absurd (beq_iff_eq.mpr (h2.symm.trans hkk.symm)) hb2
      · simpa [keysOf] using h2

lemma bucketGroup_append_new (k k2 : BucketKey) (e : EmissionEstimate) :
    ∀ bs : List (BucketKey × List EmissionEstimate), k ∉ keysOf bs →
      bucketGroup (bs ++ [(k, [e])]) k2 =
        bucketGroup bs k2 ++ (if k2 = k then [e] else []) := by
  intro bs
  induction bs with
  | nil =>
    intro _
    by_cases hk : k2 = k
    · simp [bucketGroup, hk]
    · have : (k == k2) = false := by
        rw [beq_eq_false_iff_ne]
        exact fun h2 => hk h2.symm
      simp [bucketGroup, this, hk]
  | cons b bs ih =>
    intro hk
    have hk2 : k ∉ keysOf bs := by
      intro h2
      exact hk (by simp [keysOf, List.mem_cons]; right; simpa [keysOf] using h2)
    by_cases hb2 : (b.1 == k2) = true
    · have hne : ¬ k2 = k := by
        intro hkk
        apply hk
        simp only [keysOf, List.map_cons, List.mem_cons]
        exact Or.inl (hkk.symm.trans (beq_iff_eq.mp hb2).symm)
      simp [bucketGroup, hb2, hne]
    · simp only [List.cons_append, bucketGroup, if_neg hb2]
      exact ih hk2

lemma bucketGroup_addToBucket (bs : List (BucketKey × List EmissionEstimate))
    (k : BucketKey) (e : EmissionEstimate) (k2 : BucketKey) :
    bucketGroup (addToBucket bs k e) k2 =
      bucketGroup bs k2 ++ (if k2 = k then [e] else []) := by
  unfold addToBucket
  by_cases hany : (bs.any (fun p => p.1 == k)) = true
  · rw [if_pos hany]
    apply bucketGroup_map
    intro _
    rcases List.any_eq_true.mp hany with ⟨p, hp, hpk⟩
    rw [beq_iff_eq] at hpk
    exact List.mem_map.mpr ⟨p, hp, hpk⟩
  · rw [if_neg hany]
    apply bucketGroup_append_new
    intro hkmem
    apply hany
    rcases List.mem_map.mp hkmem with ⟨p, hp, hpk⟩
    exact List.any_eq_true.mpr ⟨p, hp, beq_iff_eq.mpr hpk⟩

lemma keysOf_addToBucket (bs : List (BucketKey × List EmissionEstimate))
    (k : BucketKey) (e : EmissionEstimate) :
    (keysOf (addToBucket bs k e) = keysOf bs ∧ k ∈ keysOf bs) ∨
      (keysOf (addToBucket bs k e) = keysOf bs ++ [k] ∧ k ∉ keysOf bs) := by
  unfold addToBucket
  by_cases hany : (bs.any (fun p => p.1 == k)) = true
  · rw [if_pos hany]
    left
    constructor
    · simp only [keysOf, List.map_map]
      apply List.map_congr_left
      intro p _
      by_cases hpk : p.1 = k
      · simp [hpk]
      · simp [hpk]
    · rcases List.any_eq_true.mp hany with ⟨p, hp, hpk⟩
      rw [beq_iff_eq] at hpk
      exact List.mem_map.mpr ⟨p, hp, hpk⟩
  · rw [if_neg hany]
    right
    constructor
    · simp [keysOf]
    · intro hkmem
      apply hany
      rcases List.mem_map.mp hkmem with ⟨p, hp, hpk⟩
      exact List.any_eq_true.mpr ⟨p, hp, beq_iff_eq.mpr hpk⟩

lemma keysOf_addToBucket_mem (bs : List (BucketKey × List EmissionEstimate))
    (k : BucketKey) (e : EmissionEstimate) (k2 : BucketKey) :
    k2 ∈ keysOf (addToBucket bs k e) ↔ k2 ∈ keysOf bs ∨ k2 = k := by
  rcases keysOf_addToBucket bs k e with ⟨heq, hmem⟩ | ⟨heq, _⟩
  · rw [heq]
    constructor
    · exact Or.inl
    · rintro (h | rfl)
      · exact h
      · exact hmem
  · rw [heq]
    simp [List.mem_append]

lemma keysOf_addToBucket_nodup (bs : List (BucketKey × List EmissionEstimate))
    (k : BucketKey) (e : EmissionEstimate) (h : (keysOf bs).Nodup) :
    (keysOf (addToBucket bs k e)).Nodup := by
  rcases keysOf_addToBucket bs k e with ⟨heq, _⟩ | ⟨heq, hnot⟩
  · rw [heq]
    exact h
  · rw [heq]
    refine List.Nodup.append h (List.nodup_singleton k) ?_
    intro a ha ha2
    rw [List.mem_singleton] at ha2
    subst ha2
    exact hnot ha

lemma keysOf_buildBuckets_nodup (reporting_year : Nat) :
    ∀ (l : List EmissionEstimate) (bs : List (BucketKey × List EmissionEstimate)),
      (keysOf bs).Nodup → (keysOf (buildBuckets reporting_year l bs)).Nodup := by
  intro l
  induction l with
  | nil =>
    intro bs h
    simpa [buildBuckets] using h
  | cons e rest ih =>
    intro bs h
    exact ih _ (keysOf_addToBucket_nodup _ _ _ (keysOf_addToBucket_nodup _ _ _ h))

lemma keysOf_buildBuckets_mem (reporting_year : Nat) :
    ∀ (l : List EmissionEstimate) (bs : List (BucketKey × List EmissionEstimate))
      (k : BucketKey),
      k ∈ keysOf (buildBuckets reporting_year l bs) ↔
        k ∈ keysOf bs ∨ ∃ e ∈ l, k = annualKey reporting_year e ∨ k = monthlyKey e := by
  intro l
  induction l with
  | nil =>
    intro bs k
    simp [buildBuckets]
  | cons e rest ih =>
    intro bs k
    simp only [buildBuckets]
    rw [ih, keysOf_addToBucket_mem, keysOf_addToBucket_mem]
    simp only [List.mem_cons]
    constructor
    · rintro (((h | h) | h) | ⟨e2, he2, h⟩)
      · exact Or.inl h
      · exact Or.inr ⟨e, Or.inl rfl, Or.inl h⟩
      · exact Or.inr ⟨e, Or.inl rfl, Or.inr h⟩
      · exact Or.inr ⟨e2, Or.inr he2, h⟩
    · rintro (h | ⟨e2, (rfl | he2), h⟩)
      · exact Or.inl (Or.inl (Or.inl h))
      · rcases h with h | h
        · exact Or.inl (Or.inl (Or.inr h))
        · exact Or.inl (Or.inr h)
      · exact Or.inr ⟨e2, he2, h⟩

lemma bucketGroup_buildBuckets (reporting_year : Nat) :
    ∀ (l : List EmissionEstimate) (bs : List (BucketKey × List EmissionEstimate))
      (k : BucketKey),
      bucketGroup (buildBuckets reporting_year l bs) k =
        bucketGroup bs k ++
          l.filter (fun e2 => annualKey reporting_year e2 == k || monthlyKey e2 == k) := by
  intro l
  induction l with
  | nil =>
    intro bs k
    simp [buildBuckets]
  | cons e rest ih =>
    intro bs k
    simp only [buildBuckets]
    rw [ih, bucketGroup_addToBucket, bucketGroup_addToBucket, List.filter_cons]
    have hne := annualKey_ne_monthlyKey reporting_year e
    by_cases h1 : k = annualKey reporting_year e <;> by_cases h2 : k = monthlyKey e
    · exact absurd (h1.symm.trans h2) hne
    · have hb1 : (annualKey reporting_year e == k) = true := beq_iff_eq.mpr h1.symm
      have hb2 : (monthlyKey e == k) = false := by
        rw [beq_eq_false_iff_ne]
        exact fun hx => h2 hx.symm
      simp [h1, h2, hb1, hb2, hne, Ne.symm hne]
    · have hb1 : (annualKey reporting_year e == k) = false := by
        rw [beq_eq_false_iff_ne]
        exact fun hx => h1 hx.symm
      have hb2 : (monthlyKey e == k) = true := beq_iff_eq.mpr h2.symm
      simp [h1, h2, hb1, hb2, hne, Ne.symm hne]
    · have hb1 : (annualKey reporting_year e == k) = false := by
        rw [beq_eq_false_iff_ne]
        exact fun hx => h1 hx.symm
      have hb2 : (monthlyKey e == k) = false := by
        rw [beq_eq_false_iff_ne]
        exact fun hx => h2 hx.symm
      simp [h1, h2, hb1, hb2, hne, Ne.symm hne]

lemma mem_of_key :
    ∀ (bs : List (BucketKey × List EmissionEstimate)) (k : BucketKey),
      k ∈ keysOf bs → (k, bucketGroup bs k) ∈ bs := by
  intro bs
  induction bs with
  | nil =>
    intro k hk
    simp [keysOf] at hk
  | cons b bs ih =>
    intro k hk
    by_cases hb : (b.1 == k) = true
    · have hb1 : b.1 = k := beq_iff_eq.mp hb
      simp only [bucketGroup, if_pos hb]
      rw [← hb1]
      exact List.mem_cons_self _ _
    · simp only [bucketGroup, if_neg hb]
      have hk2 : k ∈ keysOf bs := by
        simp only [keysOf, List.map_cons, List.mem_cons] at hk
        rcases hk with h | h
        · exact absurd (beq_iff_eq.mpr h.symm) hb
        · simpa [keysOf] using h
      exact List.mem_cons_of_mem b (ih k hk2)

lemma group_of_mem :
    ∀ (bs : List (BucketKey × List EmissionEstimate)), (keysOf bs).Nodup →
      ∀ p ∈ bs, bucketGroup bs p.1 = p.2 := by
  intro bs
  induction bs with
  | nil => simp
  | cons b bs ih =>
    intro hnd p hp
    have hnd0 : b.1 ∉ keysOf bs ∧ (keysOf bs).Nodup := by
      rw [keysOf, List.map_cons, List.nodup_cons] at hnd
      exact ⟨hnd.1, hnd.2⟩
    rcases List.mem_cons.mp hp with rfl | hp2
    · simp [bucketGroup]
    · have hne : (b.1 == p.1) = false := by
        rw [beq_eq_false_iff_ne]
        intro heq
        exact hnd0.1 (heq ▸ List.mem_map.mpr ⟨p, hp2, rfl⟩)
      simp only [bucketGroup, hne, Bool.false_eq_true, if_false]
      exact ih hnd0.2 p hp2

lemma summaryRows_shape (estimates : List EmissionEstimate) (cid year : Nat) :
    ∀ s ∈ summaryRowsFor estimates cid year,
      ∃ k, s = mkSummary cid year k (bucketMembers estimates cid year k) := by
  intro s hs
  unfold summaryRowsFor at hs
  rcases List.mem_map.mp hs with ⟨p, hp, rfl⟩
  have hnd : (keysOf (buildBuckets year (loadEstimates estimates cid year) [])).Nodup :=
    keysOf_buildBuckets_nodup year _ [] (by simp [keysOf])
  have hgrp := group_of_mem _ hnd p hp
  have hchar : bucketGroup (buildBuckets year (loadEstimates estimates cid year) []) p.1 =
      bucketMembers estimates cid year p.1 := by
    rw [bucketGroup_buildBuckets]
    simp [bucketGroup, bucketMembers]
  exact ⟨p.1, by rw [← hgrp, hchar]⟩

lemma sumEmissions_cons (e : EmissionEstimate) (t : List EmissionEstimate) :
    sumEmissions (e :: t) = e.emissions_kg_co2e + sumEmissions t := by
  simp [sumEmissions]

lemma sumEmissions_partition :
    ∀ g : List EmissionEstimate,
      (∀ e ∈ g, e.data_quality = DATA_QUALITY_MEASURED ∨
        e.data_quality = DATA_QUALITY_ESTIMATED ∨ e.data_quality = DATA_QUALITY_MANUAL) →
      sumEmissions (g.filter (fun e => e.data_quality == DATA_QUALITY_MEASURED)) +
        sumEmissions (g.filter (fun e => e.data_quality == DATA_QUALITY_ESTIMATED)) +
        sumEmissions (g.filter (fun e => e.data_quality == DATA_QUALITY_MANUAL)) =
        sumEmissions g := by
  intro g
  induction g with
  | nil =>
    intro _
    simp [sumEmissions]
  | cons a t ih =>
    intro hq
    have ht := ih (fun e he => hq e (List.mem_cons_of_mem a he))
    rcases hq a (List.mem_cons_self a t) with h | h | h
    · simp only [List.filter_cons, h,
        show (DATA_QUALITY_MEASURED == DATA_QUALITY_MEASURED) = true from by decide,
        show (DATA_QUALITY_MEASURED == DATA_QUALITY_ESTIMATED) = false from by decide,
        show (DATA_QUALITY_MEASURED == DATA_QUALITY_MANUAL) = false from by decide,
        if_true, Bool.false_eq_true, if_false]
      rw [sumEmissions_cons, sumEmissions_cons]
      linarith
    · simp only [List.filter_cons, h,
        show (DATA_QUALITY_ESTIMATED == DATA_QUALITY_MEASURED) = false from by decide,
        show (DATA_QUALITY_ESTIMATED == DATA_QUALITY_ESTIMATED) = true from by decide,
        show (DATA_QUALITY_ESTIMATED == DATA_QUALITY_MANUAL) = false from by decide,
        if_true, Bool.false_eq_true, if_false]
      rw [sumEmissions_cons, sumEmissions_cons]
      linarith
    · simp only [List.filter_cons, h,
        show (DATA_QUALITY_MANUAL == DATA_QUALITY_MEASURED) = false from by decide,
        show (DATA_QUALITY_MANUAL == DATA_QUALITY_ESTIMATED) = false from by decide,
        show (DATA_QUALITY_MANUAL == DATA_QUALITY_MANUAL) = true from by decide,
        if_true, Bool.false_eq_true, if_false]
      rw [sumEmissions_cons, sumEmissions_cons]
      linarith

/-- C6: every summary row produced by a refresh satisfies
measured + estimated + manual = total, provided every estimate's data quality
is one of the three tiers; each tier field sums exactly the bucket estimates
of that tier and the total sums the whole bucket. -/
theorem summary_partition (estimates : List EmissionEstimate) (cid year : Nat)
    (hq : ∀ e ∈ estimates, e.data_quality = DATA_QUALITY_MEASURED ∨
      e.data_quality = DATA_QUALITY_ESTIMATED ∨ e.data_quality = DATA_QUALITY_MANUAL) :
    ∀ s ∈ summaryRowsFor estimates cid year,
      s.measured_kg_co2e + s.estimated_kg_co2e + s.manual_kg_co2e = s.total_kg_co2e := by
  intro s hs
  rcases summaryRows_shape estimates cid year s hs with ⟨k, rfl⟩
  simp only [mkSummary]
  apply sumEmissions_partition
  intro e he
  apply hq
  unfold bucketMembers at he
  exact List.mem_of_mem_filter (List.mem_of_mem_filter he)

/-- Witness for C6 at the three-estimate fixture bucket. -/
theorem summary_partition_witness :
    (∀ e ∈ estsConf, e.data_quality = DATA_QUALITY_MEASURED ∨
      e.data_quality = DATA_QUALITY_ESTIMATED ∨ e.data_quality = DATA_QUALITY_MANUAL) ∧
    sConf ∈ summaryRowsFor estsConf 1 2025 ∧
    sConf.measured_kg_co2e + sConf.estimated_kg_co2e + sConf.manual_kg_co2e =
      sConf.total_kg_co2e :=
  ⟨by decide, List.Mem.head _,
   summary_partition estsConf 1 2025 (by decide) sConf (List.Mem.head _)⟩

/-- C7: a summary row's confidence average is the arithmetic mean, rounded
half-even to 2 decimal places, of the non-null confidence scores of exactly
the estimates in its bucket (null scores excluded from numerator and
denominator), and is null when no bucket estimate has a score. -/
theorem confidence_avg_mean (estimates : List EmissionEstimate) (cid year : Nat) :
    ∀ s ∈ summaryRowsFor estimates cid year,
      ((bucketMembers estimates cid year (keyOfSummary s)).filterMap
          (fun e => e.confidence_score) = [] → s.confidence_score_avg = none) ∧
      ((bucketMembers estimates cid year (keyOfSummary s)).filterMap
          (fun e => e.confidence_score) ≠ [] →
        s.confidence_score_avg = some (quantize2
          (((bucketMembers estimates cid year (keyOfSummary s)).filterMap
              (fun e => e.confidence_score)).sum /
            (((bucketMembers estimates cid year (keyOfSummary s)).filterMap
              (fun e => e.confidence_score)).length : ℚ)))) := by
  intro s hs
  rcases summaryRows_shape estimates cid year s hs with ⟨k, rfl⟩
  have hkey : keyOfSummary (mkSummary cid year k (bucketMembers estimates cid year k)) = k :=
    rfl
  rw [hkey]
  constructor
  · intro hempty
    simp only [mkSummary, confidenceAvg, confScores]
    rw [hempty]
    simp
  · intro hne
    simp only [mkSummary, confidenceAvg, confScores]
    rw [if_neg (by simpa [List.isEmpty_iff] using hne)]

/-- Witness for C7: a bucket with confidence scores 90, 80 and NULL yields a
confidence average of exactly 85. -/
theorem confidence_avg_mean_witness :
    sConf ∈ summaryRowsFor estsConf 1 2025 ∧
    sConf.confidence_score_avg = some 85 := by
  have hmem : sConf ∈ summaryRowsFor estsConf 1 2025 := List.Mem.head _
  refine ⟨hmem, ?_⟩
  have hscores : (bucketMembers estsConf 1 2025 (keyOfSummary sConf)).filterMap
      (fun e => e.confidence_score) = [(90 : ℚ), 80] := rfl
  have h := (confidence_avg_mean estsConf 1 2025 sConf hmem).2
    (by rw [hscores]; simp)
  rw [h, hscores]
  have hX : (([(90 : ℚ), 80]).sum / ((([(90 : ℚ), 80]).length : Nat) : ℚ)) = 85 := by
    simp [List.sum_cons, List.sum_nil]
    norm_num
  rw [hX]
  have h85 : (85 : ℚ) * 100 = ((8500 : ℤ) : ℚ) := by norm_num
  simp only [quantize2, roundHalfEvenInt, h85, Int.floor_intCast]
  norm_num

/-- C8: refreshing a company-year with zero estimates still deletes all of
that company-year's pre-existing summary rows, keeps everyone else's, and
returns zero rather than erroring. -/
theorem refresh_empty_company_year (summaries : List EmissionsSummary)
    (estimates : List EmissionEstimate) (cid year : Nat)
    (h : loadEstimates estimates cid year = []) :
    refresh_emissions_summaries summaries estimates cid year =
      (summaries.filter (fun s => !(s.company_id == cid && s.reporting_year == year)), 0) := by
  unfold refresh_emissions_summaries summaryRowsFor
  rw [h]
  simp [buildBuckets]

/-- Witness for C8: refreshing 2025 with no estimates deletes the stale 2025
row, keeps the 2024 row, and returns 0. -/
theorem refresh_empty_company_year_witness :
    loadEstimates ([] : List EmissionEstimate) 1 2025 = [] ∧
    refresh_emissions_summaries [sumStale, sumOther] [] 1 2025 = ([sumOther], 0) :=
  ⟨rfl, by rw [refresh_empty_company_year [sumStale, sumOther] [] 1 2025 rfl]; rfl⟩

/-- C9: every estimate loaded for a refresh (period within the reporting
year) lands in exactly two buckets: the annual bucket and the single monthly
bucket keyed by the "YYYY-MM" of its period start — a multi-month estimate is
attributed wholly to its start month. -/
theorem estimate_contributes_two_buckets (estimates : List EmissionEstimate)
    (cid year : Nat) (e : EmissionEstimate)
    (he : e ∈ loadEstimates estimates cid year) :
    (∃ g, (annualKey year e, g) ∈
        buildBuckets year (loadEstimates estimates cid year) [] ∧ e ∈ g) ∧
    (∃ g, (monthlyKey e, g) ∈
        buildBuckets year (loadEstimates estimates cid year) [] ∧ e ∈ g) ∧
    annualKey year e ≠ monthlyKey e ∧
    monthlyKey e = ("monthly", strftimeYM e.period_start, e.scope, e.scope_3_category) ∧
    (∀ k g, (k, g) ∈ buildBuckets year (loadEstimates estimates cid year) [] →
      e ∈ g → k = annualKey year e ∨ k = monthlyKey e) ∧
    (keysOf (buildBuckets year (loadEstimates estimates cid year) [])).Nodup := by
  have hnd : (keysOf (buildBuckets year (loadEstimates estimates cid year) [])).Nodup :=
    keysOf_buildBuckets_nodup year _ [] (by simp [keysOf])
  have hchar : ∀ k, bucketGroup (buildBuckets year (loadEstimates estimates cid year) []) k =
      (loadEstimates estimates cid year).filter
        (fun e2 => annualKey year e2 == k || monthlyKey e2 == k) := by
    intro k
    rw [bucketGroup_buildBuckets]
    simp [bucketGroup]
  refine ⟨?_, ?_, annualKey_ne_monthlyKey year e, rfl, ?_, hnd⟩
  · have hka : annualKey year e ∈
        keysOf (buildBuckets year (loadEstimates estimates cid year) []) :=
      (keysOf_buildBuckets_mem year _ [] _).mpr (Or.inr ⟨e, he, Or.inl rfl⟩)
    refine ⟨_, mem_of_key _ _ hka, ?_⟩
    rw [hchar]
    exact List.mem_filter.mpr ⟨he, by simp⟩
  · have hkm : monthlyKey e ∈
        keysOf (buildBuckets year (loadEstimates estimates cid year) []) :=
      (keysOf_buildBuckets_mem year _ [] _).mpr (Or.inr ⟨e, he, Or.inr rfl⟩)
    refine ⟨_, mem_of_key _ _ hkm, ?_⟩
    rw [hchar]
    exact List.mem_filter.mpr ⟨he, by simp⟩
  · intro k g hkg heg
    have hg := group_of_mem _ hnd (k, g) hkg
    rw [hchar] at hg
    have hg2 : (loadEstimates estimates cid year).filter
        (fun e2 => annualKey year e2 == k || monthlyKey e2 == k) = g := hg
    rw [← hg2] at heg
    have hcond := (List.mem_filter.mp heg).2
    rcases Bool.or_eq_true_iff.mp hcond with h2 | h2
    · exact Or.inl (beq_iff_eq.mp h2).symm
    · exact Or.inr (beq_iff_eq.mp h2).symm

/-- Witness for C9: an estimate spanning January-March 2025 lands in the
annual bucket and only the "2025-01" monthly bucket. -/
theorem estimate_contributes_two_buckets_witness :
    estSpanning ∈ loadEstimates [estSpanning] 1 2025 ∧
    monthlyKey estSpanning = ("monthly", "2025-01", 3, some "cloud") ∧
    (∃ g, (annualKey 2025 estSpanning, g) ∈
        buildBuckets 2025 (loadEstimates [estSpanning] 1 2025) [] ∧ estSpanning ∈ g) ∧
    (∃ g, (monthlyKey estSpanning, g) ∈
        buildBuckets 2025 (loadEstimates [estSpanning] 1 2025) [] ∧ estSpanning ∈ g) :=
  ⟨List.Mem.head _, rfl,
   (estimate_contributes_two_buckets [estSpanning] 1 2025 estSpanning (List.Mem.head _)).1,
   (estimate_contributes_two_buckets [estSpanning] 1 2025 estSpanning
     (List.Mem.head _)).2.1⟩

end Carbonly
